import Mathlib

/-!
Verification of the `Feature` toggle class (src/Feature/feature.py).

The Python class is embedded shallowly:

* `Feature ε α` mirrors the dataclass fields.  The Python `transformer`
  is an optional unary callable that may raise; it is embedded as
  `Option (α → Except ε α)`, where `Except.error` stands for a raised
  exception with payload type `ε`.
* The Python parameter `active_features : Set[str]` becomes
  `Finset String`; the optional parameter of `apply` (default `None`)
  becomes `Option (Finset String)`, with `none` standing for an omitted
  argument.
* Logging calls have no functional effect and are dropped.
* The methods `enable`/`disable` mutate `self.enabled`; they are embedded
  as functions returning the updated record.  `is_available` and `apply`
  contain no assignment to `self`; besides the plain (pure) embedding,
  state-threaded variants `is_availableS`/`applyS` translate the method
  bodies with the `self` object passed along explicitly, so that
  non-mutation is a provable statement rather than a modelling choice.
-/

/-- Embedding of the Python dataclass `Feature` (feature.py lines 16-30). -/
structure Feature (ε α : Type) where
  name : String
  enabled : Bool
  dependencies : List String
  transformer : Option (α → Except ε α)
  description : String

variable {ε α : Type}

/-- Embedding of `Feature.enable` (feature.py lines 32-34): sets `self.enabled = True`. -/
def Feature.enable (f : Feature ε α) : Feature ε α :=
  { f with enabled := true }

/-- Embedding of `Feature.disable` (feature.py lines 36-38): sets `self.enabled = False`. -/
def Feature.disable (f : Feature ε α) : Feature ε α :=
  { f with enabled := false }

/-- Embedding of `Feature.is_available` (feature.py lines 40-48):
`missing = set(self.dependencies) - active_features`; returns `False`
when `missing` is nonempty (Python set truthiness), `True` otherwise. -/
def Feature.is_available (f : Feature ε α) (active_features : Finset String) : Bool :=
  let missing := f.dependencies.toFinset \ active_features
  if missing ≠ ∅ then false else true

/-- Embedding of `Feature.apply` (feature.py lines 50-76).  An omitted
`active_features` argument is `none` and is replaced by the empty set
(line 59-60).  A transformer result `Except.error e` stands for the
transformer raising, which the source catches, returning `data`. -/
def Feature.apply (f : Feature ε α) (data : α) (active_features : Option (Finset String)) : α :=
  if f.enabled = false then data
  else
    let active := active_features.getD ∅
    if f.is_available active = false then data
    else
      match f.transformer with
      | none => data
      | some t =>
        match t data with
        | Except.ok result => result
        | Except.error _ => data

/-- State-threaded translation of `Feature.is_available`: the `self`
object is passed along explicitly and returned next to the result.  The
method body (feature.py lines 40-48) contains no assignment to `self`,
so each return site pairs the result with the incoming object. -/
def Feature.is_availableS (f : Feature ε α) (active_features : Finset String) :
    Feature ε α × Bool :=
  let missing := f.dependencies.toFinset \ active_features
  if missing ≠ ∅ then (f, false) else (f, true)

/-- State-threaded translation of `Feature.apply` (feature.py lines
50-76): the `self` object is threaded through the call to
`is_available` and returned next to the result at every return site,
since the body contains no assignment to `self`. -/
def Feature.applyS (f : Feature ε α) (data : α) (active_features : Option (Finset String)) :
    Feature ε α × α :=
  if f.enabled = false then (f, data)
  else
    let active := active_features.getD ∅
    let p := f.is_availableS active
    if p.2 = false then (p.1, data)
    else
      match p.1.transformer with
      | none => (p.1, data)
      | some t =>
        match t data with
        | Except.ok result => (p.1, result)
        | Except.error _ => (p.1, data)

/-- Embedding of the `to_upper` transformer of the example usage
(feature.py lines 82-85): uppercases each character.  The `isinstance`
check is vacuous at type `String`.  It never raises. -/
def toUpperT : String → Except Unit String :=
  fun s => Except.ok (String.mk (s.data.map Char.toUpper))

/-- Embedding of the bracketing transformer of the example usage
(feature.py line 96). -/
def bracketT : String → Except Unit String :=
  fun s => Except.ok ("[" ++ s ++ "]")

/-- A transformer that always raises, as in spec concrete scenario 5. -/
def failT : Nat → Except Unit Nat :=
  fun _ => Except.error ()

/-- The `upper_feature` of the example usage (feature.py line 87):
constructed disabled, no dependencies, `to_upper` transformer. -/
def upperFeature : Feature Unit String :=
  { name := "uppercase", enabled := false, dependencies := [],
    transformer := some toUpperT, description := "Uppercase string inputs" }

/-- The `dependent` feature of the example usage (feature.py line 96),
after `enable()`. -/
def dependentFeature : Feature Unit String :=
  { name := "dependent", enabled := true, dependencies := ["uppercase"],
    transformer := some bracketT, description := "" }

/-- An enabled feature with two dependencies, used to exercise
permutation of the `dependencies` list. -/
def twoDepFeature : Feature Unit String :=
  { name := "combo", enabled := true, dependencies := ["uppercase", "trim"],
    transformer := some bracketT, description := "" }

/-- An enabled feature whose transformer always raises. -/
def failFeature : Feature Unit Nat :=
  { name := "boom", enabled := true, dependencies := [],
    transformer := some failT, description := "" }

/-- An enabled feature with no transformer configured. -/
def bareFeature : Feature Unit String :=
  { name := "bare", enabled := true, dependencies := [],
    transformer := none, description := "" }

/-- `is_available` returns `true` exactly when every declared dependency
name is a member of the supplied active set. -/
theorem is_available_true_iff (f : Feature ε α) (a : Finset String) :
    f.is_available a = true ↔ ∀ d ∈ f.dependencies, d ∈ a := by
  by_cases h : f.dependencies.toFinset \ a = ∅
  · simp only [Feature.is_available, h, ne_eq, not_true_eq_false, if_false, true_iff]
    intro d hd
    exact Finset.sdiff_eq_empty_iff_subset.mp h (List.mem_toFinset.mpr hd)
  · simp only [Feature.is_available, ne_eq, h, not_false_eq_true, if_true,
      Bool.false_eq_true, false_iff]
    intro hall
    apply h
    apply Finset.sdiff_eq_empty_iff_subset.mpr
    intro d hd
    exact hall d (List.mem_toFinset.mp hd)

/-- The state-threaded `is_available` returns the object unchanged. -/
theorem is_availableS_fst (f : Feature ε α) (a : Finset String) :
    (f.is_availableS a).1 = f := by
  by_cases h : f.dependencies.toFinset \ a = ∅ <;> simp [Feature.is_availableS, h]

/-- The state-threaded `is_available` computes the same boolean as the
pure embedding. -/
theorem is_availableS_snd (f : Feature ε α) (a : Finset String) :
    (f.is_availableS a).2 = f.is_available a := by
  by_cases h : f.dependencies.toFinset \ a = ∅ <;>
    simp [Feature.is_availableS, Feature.is_available, h]

/-- The state-threaded `apply` returns the object unchanged. -/
theorem applyS_fst (f : Feature ε α) (data : α) (act : Option (Finset String)) :
    (f.applyS data act).1 = f := by
  by_cases h1 : f.enabled = false
  · simp [Feature.applyS, h1]
  · by_cases h2 : (f.is_availableS (act.getD ∅)).2 = false
    · simp [Feature.applyS, h1, h2, is_availableS_fst]
    · cases h3 : f.transformer with
      | none => simp [Feature.applyS, h1, h2, is_availableS_fst, h3]
      | some t =>
        cases h4 : t data with
        | ok r => simp [Feature.applyS, h1, h2, is_availableS_fst, h3, h4]
        | error e => simp [Feature.applyS, h1, h2, is_availableS_fst, h3, h4]

/-- C1: for every enabled feature whose dependencies are all in the
supplied active set and whose transformer is configured, if the
transformer raises on the input data then `apply` catches the error, does
not propagate it, and returns the original data unchanged; `apply` is a
total function, so it never fails with an exception or error return. -/
theorem C1_transformer_error_caught (f : Feature ε α) (data : α)
    (act : Option (Finset String)) (t : α → Except ε α) (e : ε)
    (h1 : f.enabled = true) (h2 : ∀ d ∈ f.dependencies, d ∈ act.getD ∅)
    (h3 : f.transformer = some t) (h4 : t data = Except.error e) :
    f.apply data act = data := by
  have hav : f.is_available (act.getD ∅) = true := (is_available_true_iff f _).mpr h2
  simp [Feature.apply, h1, hav, h3, h4]

/-- Witness for C1: the always-raising feature returns `42` unchanged
from `apply 42`. -/
theorem C1_witness :
    failFeature.enabled = true ∧
    (∀ d ∈ failFeature.dependencies, d ∈ (none : Option (Finset String)).getD ∅) ∧
    failFeature.transformer = some failT ∧ failT 42 = Except.error () ∧
    failFeature.apply 42 none = 42 :=
  ⟨rfl, by decide, rfl, rfl,
    C1_transformer_error_caught failFeature 42 none failT () rfl (by decide) rfl rfl⟩

/-- C2: for every feature with `enabled = false`, `apply data act`
returns `data` unchanged, for any data and any active set, including an
omitted one (`none`). -/
theorem C2_disabled_identity (f : Feature ε α) (data : α)
    (act : Option (Finset String)) (h : f.enabled = false) :
    f.apply data act = data := by
  simp [Feature.apply, h]

/-- Witness for C2: the disabled uppercase feature returns `"hello"`
unchanged, with the active set omitted and with one supplied. -/
theorem C2_witness :
    upperFeature.enabled = false ∧ upperFeature.apply "hello" none = "hello" ∧
    upperFeature.apply "hello" (some {"uppercase"}) = "hello" :=
  ⟨rfl, C2_disabled_identity upperFeature "hello" none rfl,
    C2_disabled_identity upperFeature "hello" (some {"uppercase"}) rfl⟩

/-- C3: `is_available active` is `true` iff every name in `dependencies`
is present in `active`; in particular it is `true` whenever
`dependencies` is empty. -/
theorem C3_is_available_iff (f : Feature ε α) (a : Finset String) :
    (f.is_available a = true ↔ ∀ d ∈ f.dependencies, d ∈ a) ∧
    (f.dependencies = [] → f.is_available a = true) := by
  refine ⟨is_available_true_iff f a, fun h => ?_⟩
  rw [is_available_true_iff]
  intro d hd
  rw [h] at hd
  exact absurd hd (List.not_mem_nil d)

/-- Witness for C3: the dependency-free uppercase feature is available
for the empty active set. -/
theorem C3_witness : upperFeature.is_available ∅ = true :=
  (C3_is_available_iff upperFeature ∅).2 rfl

/-- C4: for every enabled feature whose dependencies are all in the
supplied active set and whose transformer is configured, if the
transformer succeeds on the input data then `apply` returns exactly the
transformer result. -/
theorem C4_success_returns_result (f : Feature ε α) (data r : α)
    (act : Option (Finset String)) (t : α → Except ε α)
    (h1 : f.enabled = true) (h2 : ∀ d ∈ f.dependencies, d ∈ act.getD ∅)
    (h3 : f.transformer = some t) (h4 : t data = Except.ok r) :
    f.apply data act = r := by
  have hav : f.is_available (act.getD ∅) = true := (is_available_true_iff f _).mpr h2
  simp [Feature.apply, h1, hav, h3, h4]

/-- Witness for C4, the concrete scenario of the claim: the feature
named `uppercase`, after `enable`, returns `"HELLO"` from
`apply "hello"`. -/
theorem C4_witness :
    upperFeature.enable.enabled = true ∧
    upperFeature.enable.transformer = some toUpperT ∧
    toUpperT "hello" = Except.ok "HELLO" ∧
    upperFeature.enable.apply "hello" none = "HELLO" :=
  ⟨rfl, rfl, rfl,
    C4_success_returns_result upperFeature.enable "hello" "HELLO" none toUpperT
      rfl (by decide) rfl rfl⟩

/-- C5: for every enabled feature with non-empty dependencies and an
active set that does not contain all of them, `apply` returns the data
unchanged, and the result does not depend on the transformer field (the
transformer is never invoked). -/
theorem C5_unavailable_identity (f : Feature ε α) (data : α)
    (act : Option (Finset String)) (h1 : f.enabled = true)
    (_hne : f.dependencies ≠ [])
    (h3 : ¬ ∀ d ∈ f.dependencies, d ∈ act.getD ∅) :
    f.apply data act = data ∧
    ∀ t : Option (α → Except ε α),
      ({ f with transformer := t } : Feature ε α).apply data act = data := by
  have hav : f.is_available (act.getD ∅) = false := by
    cases hb : f.is_available (act.getD ∅) with
    | false => rfl
    | true => exact absurd ((is_available_true_iff f _).mp hb) h3
  constructor
  · simp [Feature.apply, h1, hav]
  · intro t
    have h1x : ({ f with transformer := t } : Feature ε α).enabled = true := h1
    have havx : ({ f with transformer := t } : Feature ε α).is_available (act.getD ∅) = false :=
      hav
    simp [Feature.apply, h1x, havx]

/-- Witness for C5, concrete scenario 4 of the spec: the enabled
`dependent` feature with the empty active set returns `"data"`
unchanged. -/
theorem C5_witness :
    dependentFeature.enabled = true ∧ dependentFeature.dependencies ≠ [] ∧
    (¬ ∀ d ∈ dependentFeature.dependencies,
        d ∈ (some ∅ : Option (Finset String)).getD ∅) ∧
    dependentFeature.apply "data" (some ∅) = "data" :=
  ⟨rfl, by decide, by decide,
    (C5_unavailable_identity dependentFeature "data" (some ∅) rfl (by decide) (by decide)).1⟩

/-- C6: for every enabled feature with no configured transformer whose
dependencies are all in the supplied active set, `apply` returns the
data unchanged. -/
theorem C6_no_transformer_identity (f : Feature ε α) (data : α)
    (act : Option (Finset String)) (h1 : f.enabled = true)
    (h2 : ∀ d ∈ f.dependencies, d ∈ act.getD ∅)
    (h3 : f.transformer = none) :
    f.apply data act = data := by
  have hav : f.is_available (act.getD ∅) = true := (is_available_true_iff f _).mpr h2
  simp [Feature.apply, h1, hav, h3]

/-- Witness for C6: the enabled transformer-free feature returns
`"hello"` unchanged. -/
theorem C6_witness :
    bareFeature.enabled = true ∧ bareFeature.transformer = none ∧
    bareFeature.apply "hello" none = "hello" :=
  ⟨rfl, rfl, C6_no_transformer_identity bareFeature "hello" none rfl (by decide) rfl⟩

/-- C7: calling `apply` with the active-set argument omitted gives the
same result as calling it with the empty set. -/
theorem C7_default_active_empty (f : Feature ε α) (data : α) :
    f.apply data none = f.apply data (some ∅) := rfl

/-- The state-threaded `apply` computes the same result as the pure
embedding. -/
theorem applyS_snd (f : Feature ε α) (data : α) (act : Option (Finset String)) :
    (f.applyS data act).2 = f.apply data act := by
  by_cases h1 : f.enabled = false
  · simp [Feature.applyS, Feature.apply, h1]
  · by_cases h2 : f.is_available (act.getD ∅) = false
    · have h2s : (f.is_availableS (act.getD ∅)).2 = false := by
        rw [is_availableS_snd]
        exact h2
      simp [Feature.applyS, Feature.apply, h1, h2, h2s]
    · have h2s : ¬ (f.is_availableS (act.getD ∅)).2 = false := by
        rw [is_availableS_snd]
        exact h2
      cases h3 : f.transformer with
      | none => simp [Feature.applyS, Feature.apply, h1, h2, h2s, is_availableS_fst, h3]
      | some t =>
        cases h4 : t data with
        | ok r => simp [Feature.applyS, Feature.apply, h1, h2, h2s, is_availableS_fst, h3, h4]
        | error e => simp [Feature.applyS, Feature.apply, h1, h2, h2s, is_availableS_fst, h3, h4]

/-- C8: `is_available` and `apply` leave every field of the feature
unchanged (stated on the state-threaded translations, which return the
object next to the result); `enable` and `disable` change the `enabled`
flag and no other field, so `enabled` changes only through those two
explicit operations. -/
theorem C8_frame (f : Feature ε α) (a : Finset String) (data : α)
    (act : Option (Finset String)) :
    (f.is_availableS a).1 = f ∧ (f.applyS data act).1 = f ∧
    f.enable.enabled = true ∧ f.enable.name = f.name ∧
    f.enable.dependencies = f.dependencies ∧ f.enable.transformer = f.transformer ∧
    f.enable.description = f.description ∧
    f.disable.enabled = false ∧ f.disable.name = f.name ∧
    f.disable.dependencies = f.dependencies ∧ f.disable.transformer = f.transformer ∧
    f.disable.description = f.description :=
  ⟨is_availableS_fst f a, applyS_fst f data act,
    rfl, rfl, rfl, rfl, rfl, rfl, rfl, rfl, rfl, rfl⟩

/-- Iterating `enable` any number of further times after one call leaves
the feature at `f.enable`. -/
theorem enable_iterate_fixed (f : Feature ε α) (m : Nat) :
    Feature.enable^[m] f.enable = f.enable := by
  induction m with
  | zero => rfl
  | succ k ih =>
    rw [Function.iterate_succ_apply]
    exact ih

/-- Iterating `disable` any number of further times after one call
leaves the feature at `f.disable`. -/
theorem disable_iterate_fixed (f : Feature ε α) (m : Nat) :
    Feature.disable^[m] f.disable = f.disable := by
  induction m with
  | zero => rfl
  | succ k ih =>
    rw [Function.iterate_succ_apply]
    exact ih

/-- C9: `enable` and `disable` are idempotent: for every feature and
every n ≥ 1, n calls of `enable` produce the same state as one call,
with `enabled = true`, and likewise n calls of `disable` produce the
state of one call, with `enabled = false`; both are total functions with
no precondition. -/
theorem C9_enable_disable_idempotent (f : Feature ε α) (n : Nat) (h : 1 ≤ n) :
    Feature.enable^[n] f = f.enable ∧ (Feature.enable^[n] f).enabled = true ∧
    Feature.disable^[n] f = f.disable ∧ (Feature.disable^[n] f).enabled = false := by
  obtain ⟨m, rfl⟩ : ∃ m, n = m + 1 := ⟨n - 1, by omega⟩
  refine ⟨?_, ?_, ?_, ?_⟩
  · rw [Function.iterate_succ_apply]
    exact enable_iterate_fixed f m
  · rw [Function.iterate_succ_apply, enable_iterate_fixed f m]
    rfl
  · rw [Function.iterate_succ_apply]
    exact disable_iterate_fixed f m
  · rw [Function.iterate_succ_apply, disable_iterate_fixed f m]
    rfl

/-- Witness for C9: two calls of `enable` (resp. `disable`) on the
uppercase feature equal one call. -/
theorem C9_witness :
    1 ≤ 2 ∧
    (Feature.enable^[2] upperFeature = upperFeature.enable ∧
      (Feature.enable^[2] upperFeature).enabled = true ∧
      Feature.disable^[2] upperFeature = upperFeature.disable ∧
      (Feature.disable^[2] upperFeature).enabled = false) :=
  ⟨by decide, C9_enable_disable_idempotent upperFeature 2 (by decide)⟩

/-- C10: replacing the `dependencies` list by any permutation of it
changes the results of neither `is_available` nor `apply`. -/
theorem C10_dependencies_perm_invariant (f : Feature ε α) (deps : List String)
    (hperm : List.Perm f.dependencies deps) (a : Finset String) (data : α)
    (act : Option (Finset String)) :
    ({ f with dependencies := deps } : Feature ε α).is_available a = f.is_available a ∧
    ({ f with dependencies := deps } : Feature ε α).apply data act = f.apply data act := by
  have hfin : deps.toFinset = f.dependencies.toFinset := by
    ext x
    simp only [List.mem_toFinset]
    exact hperm.mem_iff.symm
  have hia : ∀ b : Finset String,
      ({ f with dependencies := deps } : Feature ε α).is_available b = f.is_available b := by
    intro b
    simp [Feature.is_available, hfin]
  refine ⟨hia a, ?_⟩
  simp only [Feature.apply, hia]

/-- Witness for C10: swapping the two dependencies of the combo feature
changes neither availability nor application results. -/
theorem C10_witness :
    List.Perm twoDepFeature.dependencies ["trim", "uppercase"] ∧
    ({ twoDepFeature with dependencies := ["trim", "uppercase"] } :
        Feature Unit String).is_available {"uppercase"} =
      twoDepFeature.is_available {"uppercase"} ∧
    ({ twoDepFeature with dependencies := ["trim", "uppercase"] } :
        Feature Unit String).apply "x" (some {"uppercase", "trim"}) =
      twoDepFeature.apply "x" (some {"uppercase", "trim"}) :=
  ⟨by decide,
    (C10_dependencies_perm_invariant twoDepFeature ["trim", "uppercase"] (by decide)
      {"uppercase"} "x" (some {"uppercase", "trim"})).1,
    (C10_dependencies_perm_invariant twoDepFeature ["trim", "uppercase"] (by decide)
      {"uppercase"} "x" (some {"uppercase", "trim"})).2⟩
